import Mathlib

/-!
Shallow embedding of the tree-shaker (src/main.ts, final revision) and
verification of its specification claims.

The program resolves a set of entry modules into transitive dependency
graphs (class `Graph`), detects import declarations whose named specifiers
are never used as a direct top-level call callee (class `Module`), excises
their spans via an edit buffer (`magic-string`), and exposes a multi-chunk
orchestrator (`treeShaker`).

Modelling conventions:
* acorn AST nodes become inductive data carrying the `{start, end}` byte
  spans the code consumes; `nodeToPlain` is `source.slice(start, end)`.
* JavaScript `Map` objects keyed by *objects* (URL keys in `Graph.modules`,
  `Module` keys elsewhere) are modelled as association lists whose keys
  carry an allocation identifier, since JS compares object keys by identity.
* the asynchronous recursive build is modelled sequentially (the cooperative
  scheduler interleaves only at I/O; the dependency fan-out is sequentialised
  depth-first) with an explicit fuel parameter standing for the number of
  module initialisations performed, so non-termination is observable as
  `none` for every fuel.
* the `magic-string` edit buffer is an external collaborator (not part of
  this repository); it is modelled from the spec, see `MagicString`.
-/

set_option maxRecDepth 10000

namespace TreeShaker

/-- Byte span `[start, stop)` of an acorn node (`node.start` / `node.end`);
the field `end` of the source is renamed `stop` because `end` is reserved. -/
structure NodeSpan where
  start : Nat
  stop : Nat
deriving DecidableEq, Repr

/-- An acorn `Identifier` node: its name and its span. -/
structure IdentifierNode where
  name : String
  span : NodeSpan
deriving DecidableEq, Repr

/-- The `imported` field of an acorn `ImportSpecifier`: either an
`Identifier` node or (for string-named imports) a `Literal` node. -/
inductive ImportedNode where
  | identifier (name : String) (span : NodeSpan)
  | literal (span : NodeSpan)
deriving DecidableEq, Repr

/-- The three acorn import-specifier node types
(`ImportSpecifier`, `ImportDefaultSpecifier`, `ImportNamespaceSpecifier`). -/
inductive SpecifierKind where
  | importSpecifier (imported : ImportedNode)
  | importDefaultSpecifier
  | importNamespaceSpecifier
deriving DecidableEq, Repr

/-- One entry of `ImportDeclaration.specifiers`, with the node's own span
(the span is what `nodeToPlain` slices for the usage comparison). -/
structure Specifier where
  kind : SpecifierKind
  span : NodeSpan
deriving DecidableEq, Repr

/-- An acorn `ImportDeclaration` node: `source.value` (which the code checks
for string-ness, hence `Option String`), the specifier list, and the span. -/
structure ImportDeclaration where
  sourceValue : Option String
  specifiers : List Specifier
  span : NodeSpan
deriving DecidableEq, Repr

/-- The callee of a `CallExpression`: the code only inspects whether it is
an `Identifier` node. -/
inductive CalleeNode where
  | identCallee (id : IdentifierNode)
  | otherCallee
deriving DecidableEq, Repr

/-- The expression of an `ExpressionStatement`: the code only inspects
whether it is a `CallExpression` (arguments are never inspected). -/
inductive ExpressionNode where
  | callExpression (callee : CalleeNode)
  | otherExpression
deriving DecidableEq, Repr

/-- One element of `Program.body`. -/
inductive Stmt where
  | importDecl (d : ImportDeclaration)
  | exprStmt (e : ExpressionNode)
  | otherStmt
deriving DecidableEq, Repr

/-- A `Module` after `init()` completed: its loaded source text and the
parsed `Program.body`.  Resolution identity lives in `ModuleV` below. -/
structure Module where
  source : String
  program : List Stmt
deriving DecidableEq, Repr

/-- JavaScript `source.slice(node.start, node.end)`, i.e. the code's
`Module.nodeToPlain`. -/
def nodeToPlain (m : Module) (sp : NodeSpan) : String :=
  String.mk ((m.source.data.drop sp.start).take (sp.stop - sp.start))

/-- The loop of `Module.calculateImportDeclarations`: every body node of
type `ImportDeclaration`, in source order. -/
def calculateImportDeclarations (m : Module) : List ImportDeclaration :=
  m.program.filterMap (fun n =>
    match n with
    | .importDecl d => some d
    | _ => none)

/-- The inner loop of `Module.calculateImportSpecifiersMap`: the specifiers
of one declaration that are pushed, namely those of type `ImportSpecifier`
whose `imported` is an `Identifier` node. -/
def collectedSpecifiers (d : ImportDeclaration) : List Specifier :=
  d.specifiers.filter (fun s =>
    match s.kind with
    | .importSpecifier (.identifier _ _) => true
    | _ => false)

/-- `Module.calculateImportSpecifiersMap`: a `Map` keyed by the (pairwise
distinct) `ImportDeclaration` nodes in declaration order, each mapped to its
collected specifier list. -/
def calculateImportSpecifiersMap (m : Module) :
    List (ImportDeclaration × List Specifier) :=
  (calculateImportDeclarations m).map (fun d => (d, collectedSpecifiers d))

/-- `Module.calculateUsedSpecifiersInModuleBody`: the `Identifier` callees of
`CallExpression`s that are top-level `ExpressionStatement`s, in body order. -/
def calculateUsedSpecifiersInModuleBody (m : Module) : List IdentifierNode :=
  m.program.filterMap (fun n =>
    match n with
    | .exprStmt (.callExpression (.identCallee id)) => some id
    | _ => none)

/-- `Module.calculateNotUsedImportDeclarations`: a declaration is pushed iff
none of its collected specifiers' source text equals some used callee's
source text; the push loop over the map is this filter-then-project. -/
def calculateNotUsedImportDeclarations (m : Module) : List ImportDeclaration :=
  let usedSpecifiers := calculateUsedSpecifiersInModuleBody m
  ((calculateImportSpecifiersMap m).filter (fun p =>
    !(p.2.any (fun importSpecifier =>
      usedSpecifiers.any (fun usedSpecifier =>
        nodeToPlain m usedSpecifier.span == nodeToPlain m importSpecifier.span))))).map
    (fun p => p.1)

/-- `Module.calculateDependencyPaths`: the string-valued `source.value`
fields of the import declarations, in source order. -/
def calculateDependencyPaths (m : Module) : List String :=
  (calculateImportDeclarations m).filterMap (fun d => d.sourceValue)

/-- Whether byte index `i` falls inside some removed span. -/
def coveredB (ns : List NodeSpan) (i : Nat) : Bool :=
  ns.any (fun n => decide (n.start ≤ i) && decide (i < n.stop))

/-- Characters of `l` (whose first element has index `i`) at indices
satisfying `p`, in original order. -/
def keepChars (p : Nat → Bool) : Nat → List Char → List Char
  | _, [] => []
  | i, c :: cs => if p i then c :: keepChars p (i + 1) cs else keepChars p (i + 1) cs

/-- Modelled from the spec: the edit-buffer collaborator (the `magic-string`
library, which is not part of this repository).  Per the spec it is
"constructed from an original string; supports `remove(start, end)`;
serializes to final text honoring all removals regardless of call order",
tracking offsets against the original source.  The model records the
original string and the list of removal requests. -/
structure MagicString where
  original : String
  removed : List NodeSpan
deriving DecidableEq, Repr

/-- Modelled from the spec: `new MagicString(source)` holds the original
string with no pending removals. -/
def MagicString.ofString (s : String) : MagicString := ⟨s, []⟩

/-- Modelled from the spec: `remove(start, end)` records one removal request
against original-source offsets. -/
def MagicString.remove (ms : MagicString) (a b : Nat) : MagicString :=
  ⟨ms.original, ⟨a, b⟩ :: ms.removed⟩

/-- Modelled from the spec: `toString()` serializes to the characters whose
original index lies in no removed span, in original order. -/
def MagicString.serialize (ms : MagicString) : String :=
  String.mk (keepChars (fun i => !coveredB ms.removed i) 0 ms.original.data)

/-- `Module.removeNodes`: the `reduce` over the nodes to remove, calling
`code.remove(node.start, node.end)` for each. -/
def removeNodes (source : MagicString) (nodes : List NodeSpan) : MagicString :=
  nodes.foldl (fun code nodeToRemove => code.remove nodeToRemove.start nodeToRemove.stop) source

/-- `Module.getCode({withRemovedNodes})`: build a fresh `MagicString` from
the stored source, apply `removeNodes` when the list is non-empty (the
code's `if (withRemovedNodes && withRemovedNodes.length)` guard), and
serialize.  The code passes AST nodes; only their spans are consumed. -/
def getCode (m : Module) (withRemovedNodes : List NodeSpan) : String :=
  let str := MagicString.ofString m.source
  let str := if !withRemovedNodes.isEmpty then removeNodes str withRemovedNodes else str
  str.serialize

/-- A canonical module location: the `href` string form of a resolved URL. -/
abbrev Loc := String

/-- The exceptions a module initialisation can raise: `new URL` throwing on
an unresolvable specifier, `readFile` rejecting, `acorn.parse` throwing. -/
inductive Err where
  | resolutionError
  | loadError
  | parseError
deriving DecidableEq, Repr

/-- The external collaborators of `Module.init()`: URL resolution
(`new URL(input, parentUrl)`), the loader (`readFile`) and the parser
(`acorn.parse`), each returning `none` where the JavaScript call throws. -/
structure Env where
  resolve : String → Loc → Option Loc
  load : Loc → Option String
  parseProgram : String → Option (List Stmt)

/-- One initialised `Module` object as stored by the `Graph`: `id` is the
allocation identity of its `resolvedPath` `URL` object (fresh per `Module`,
because `resolve()` always constructs a new `URL`), `href` its canonical
string form, and `mod` the loaded/parsed module data. -/
structure ModuleV where
  id : Nat
  href : Loc
  mod : Module
deriving DecidableEq, Repr

/-- The mutable state of one `Graph`: the `modules` map and the allocation
counter for URL object identities. -/
structure GraphState where
  modules : List ModuleV
  nextId : Nat
deriving DecidableEq, Repr

/-- JavaScript `Map.prototype.set` on `Graph.modules`.  The map is keyed by
the `URL` *objects* (`Map<URL, Module>`), which JavaScript compares by
identity: an existing entry is overwritten only when the very same `URL`
object (same `id`) is used again, otherwise the entry is appended. -/
def mapSet (l : List ModuleV) (v : ModuleV) : List ModuleV :=
  if l.any (fun w => w.id == v.id && w.href == v.href) then
    l.map (fun w => if w.id == v.id && w.href == v.href then v else w)
  else l ++ [v]

/-- `Graph.initModule`: construct a `Module`, run `init()` (resolve, load,
parse — each failure propagates), then `this.modules.set(resolvedPath, module)`. -/
def initModule (env : Env) (st : GraphState) (path : String) (parent : Loc) :
    Except Err (ModuleV × GraphState) :=
  match env.resolve path parent with
  | none => .error .resolutionError
  | some href =>
    match env.load href with
    | none => .error .loadError
    | some src =>
      match env.parseProgram src with
      | none => .error .parseError
      | some prog =>
        let mv : ModuleV := ⟨st.nextId, href, ⟨src, prog⟩⟩
        .ok (mv, ⟨mapSet st.modules mv, st.nextId + 1⟩)

/-- `Graph.initModuleRecursively`, sequentialised depth-first: the worklist
holds the pending `(path, parent)` pairs; processing one pair initialises
that module and prepends its dependency paths (resolved against the new
module's `resolvedPath`), exactly the recursion order of the code's awaited
fan-out.  `fuel` bounds the number of initialisations: `none` means the
recursion did not finish within `fuel` steps, so divergence is
`∀ fuel, result = none`.  The first error encountered aborts the build. -/
def buildLoop (env : Env) : Nat → List (String × Loc) → GraphState →
    Option (Except Err GraphState)
  | _, [], st => some (.ok st)
  | 0, _ :: _, _ => none
  | Nat.succ fuel, (path, parent) :: rest, st =>
    match initModule env st path parent with
    | .error e => some (.error e)
    | .ok (mv, st1) =>
      buildLoop env fuel
        ((calculateDependencyPaths mv.mod).map (fun d => (d, mv.href)) ++ rest) st1

/-- `Graph.build()`: run the recursive initialisation from the entry
specifier against the parent location, starting from an empty module map. -/
def build (env : Env) (fuel : Nat) (input : String) (parent : Loc) :
    Option (Except Err GraphState) :=
  buildLoop env fuel [(input, parent)] ⟨[], 0⟩

/-- `Graph.removeUnusedImports()`: for every registered module in map order,
pair the module with `getCode` applied to its not-used declarations (the
code passes the declaration nodes; `remove` consumes their spans).  The
result models the returned `Map<Module, string>` in insertion order. -/
def removeUnusedImports (st : GraphState) : List (ModuleV × String) :=
  st.modules.map (fun mv =>
    (mv, getCode mv.mod ((calculateNotUsedImportDeclarations mv.mod).map (fun d => d.span))))

/-- `Chunk.generate()`: `const [[, code]] = withRemovedImports` destructures
the *first* entry of the map and returns its code; on an empty map the
destructuring throws (`none`). -/
def chunkGenerate (st : GraphState) : Option String :=
  match removeUnusedImports st with
  | [] => none
  | (_, code) :: _ => some code

/-- Whether a build outcome settled successfully. -/
def isOkSome : Option (Except Err GraphState) → Bool
  | some (.ok _) => true
  | _ => false

/-- Whether an outcome settled with an error (a rejected promise). -/
def isErrorResult {α : Type} : Option (Except Err α) → Bool
  | some (.error _) => true
  | _ => false

/-- The graph state of a successful build (`emptyGraphState` default is
never reached when `isOkSome` holds). -/
def stateOf : Option (Except Err GraphState) → GraphState
  | some (.ok st) => st
  | _ => ⟨[], 0⟩

/-- The first rejection observed by `Promise.all`, chosen among the failed
chunk indices by the scheduling order `sched` (promise settlement order is
not guaranteed); defaults to the first failed index when `sched` lists none
of them. -/
def scheduledFirst (sched : List Nat) (errs : List (Nat × Err)) : Option Err :=
  match sched with
  | [] => errs.head?.map (fun p => p.2)
  | n :: rest =>
    match errs.find? (fun p => p.1 == n) with
    | some p => some p.2
    | none => scheduledFirst rest errs

/-- The `treeShaker` orchestrator up to its returned handle: for each
declared `(destination, source)` chunk a `Chunk` is constructed and pushed —
synchronously, before the first `await` of its callback, hence in
declaration order — and all builds are awaited with `Promise.all`.  If some
build rejects, the whole call rejects with the schedule-determined first
rejection; if some build never settles (and none rejects) the call never
settles (`none`); otherwise the handle holds the built graphs in
declaration order. -/
def treeShakerBuild (env : Env) (fuel : Nat) (decl : List (String × String))
    (parent : Loc) (sched : List Nat) : Option (Except Err (List GraphState)) :=
  let builds := decl.map (fun p => build env fuel p.2 parent)
  let errs := builds.enum.filterMap (fun q =>
    match q.2 with
    | some (.error e) => some (q.1, e)
    | _ => none)
  match scheduledFirst sched errs with
  | some e => some (.error e)
  | none =>
    if builds.any (fun b => b.isNone) then none
    else some (.ok (builds.map stateOf))

/-- The handle's `generate()`: `chunks.map((chunk) => chunk.generate())`,
one produced text per chunk in the pushed (declaration) order. -/
def treeShakerGenerate (gs : List GraphState) : List (Option String) :=
  gs.map chunkGenerate

/-- Stateful rendering of `calculateNotUsedImportDeclarations`: the method
body assigns to no field of `this`, so the returned module state is the
receiver unchanged. -/
def calculateNotUsedImportDeclarationsS (m : Module) :
    List ImportDeclaration × Module :=
  (calculateNotUsedImportDeclarations m, m)

/-- Stateful rendering of `getCode`: the method constructs a local
`MagicString` from `this.source`, mutates only that local buffer through
`removeNodes`, and assigns to no field of `this`; the returned module state
is the receiver unchanged. -/
def getCodeS (m : Module) (ns : List NodeSpan) : String × Module :=
  let str := MagicString.ofString m.source
  let str := if !ns.isEmpty then removeNodes str ns else str
  (str.serialize, m)

/-- Stateful rendering of `Graph.removeUnusedImports`: the method only reads
`this.modules` and writes a fresh local `Map`, so the graph state is
returned unchanged. -/
def removeUnusedImportsS (st : GraphState) :
    List (ModuleV × String) × GraphState :=
  (removeUnusedImports st, st)

/-- Specification-side predicate (for comparison with the source-derived
`calculateNotUsedImportDeclarations`): a declaration is unused iff no
*named* specifier's exact source text matches the exact source text of any
identifier occurring as the direct callee of a top-level call statement. -/
def namedSpecifiers (d : ImportDeclaration) : List Specifier :=
  d.specifiers.filter (fun s =>
    match s.kind with
    | .importSpecifier _ => true
    | _ => false)

/-- Specification-side predicate: see `namedSpecifiers`. -/
def specUnusedImportDeclaration (m : Module) (d : ImportDeclaration) : Bool :=
  !((namedSpecifiers d).any (fun s =>
    (calculateUsedSpecifiersInModuleBody m).any (fun u =>
      nodeToPlain m u.span == nodeToPlain m s.span)))

/-- A string shaped like an ECMAScript identifier token (ASCII fragment):
non-empty, alphanumeric or underscore or dollar characters only.  The
source text of an `Identifier` node emitted by the parser has this shape;
in particular it contains no space and no quote. -/
def isIdentifierText (s : String) : Bool :=
  !s.data.isEmpty && s.data.all (fun c => c.isAlphanum || c == '_' || c == '$')

/-- Concrete module for the three-import scenario: imports `{a}` from "A",
`{b}` from "B", `{c}` from "C"; the body calls `a()` and `b()` but never
references `c`.  Spans are acorn's byte offsets into the source. -/
def mEx : Module :=
  ⟨"import { a } from \"A\";import { b } from \"B\";import { c } from \"C\";a();b();",
   [.importDecl ⟨some ("A"), [⟨.importSpecifier (.identifier "a" ⟨9, 10⟩), ⟨9, 10⟩⟩], ⟨0, 22⟩⟩,
    .importDecl ⟨some ("B"), [⟨.importSpecifier (.identifier "b" ⟨31, 32⟩), ⟨31, 32⟩⟩], ⟨22, 44⟩⟩,
    .importDecl ⟨some ("C"), [⟨.importSpecifier (.identifier "c" ⟨53, 54⟩), ⟨53, 54⟩⟩], ⟨44, 66⟩⟩,
    .exprStmt (.callExpression (.identCallee ⟨"a", ⟨66, 67⟩⟩)),
    .exprStmt (.callExpression (.identCallee ⟨"b", ⟨70, 71⟩⟩))]⟩

/-- Concrete module with a side-effect-only import (`import "m"`), whose
specifier list is empty, followed by a top-level call `a()`. -/
def m9 : Module :=
  ⟨"import \"m\";a();",
   [.importDecl ⟨some ("m"), [], ⟨0, 11⟩⟩,
    .exprStmt (.callExpression (.identCallee ⟨"a", ⟨11, 12⟩⟩))]⟩

/-- Concrete module with an aliased named import (`import { a as b }`): the
specifier node's span covers the text "a as b"; the body calls both `a()`
and `b()`. -/
def m10 : Module :=
  ⟨"import { a as b } from \"m\";a();b();",
   [.importDecl ⟨some ("m"), [⟨.importSpecifier (.identifier "a" ⟨9, 10⟩), ⟨9, 15⟩⟩], ⟨0, 27⟩⟩,
    .exprStmt (.callExpression (.identCallee ⟨"a", ⟨27, 28⟩⟩)),
    .exprStmt (.callExpression (.identCallee ⟨"b", ⟨31, 32⟩⟩))]⟩

/-- Concrete environment with two modules forming a cycle: A imports B and
B imports A.  Specifiers resolve to themselves. -/
def envCycle : Env :=
  ⟨fun p _ => some p,
   fun l => if l = ("A") then some ("ASRC") else if l = ("B") then some ("BSRC") else none,
   fun s =>
     if s = ("ASRC") then some [.importDecl ⟨some ("B"), [], ⟨0, 0⟩⟩]
     else if s = ("BSRC") then some [.importDecl ⟨some ("A"), [], ⟨0, 0⟩⟩]
     else none⟩

/-- Concrete diamond-dependency environment: entry E imports X and Y, and
both X and Y import Z. -/
def envDiamond : Env :=
  ⟨fun p _ => some p,
   fun l =>
     if l = ("E") then some ("ESRC") else if l = ("X") then some ("XSRC")
     else if l = ("Y") then some ("YSRC") else if l = ("Z") then some ("ZSRC") else none,
   fun s =>
     if s = ("ESRC") then some [.importDecl ⟨some ("X"), [], ⟨0, 0⟩⟩, .importDecl ⟨some ("Y"), [], ⟨0, 0⟩⟩]
     else if s = ("XSRC") then some [.importDecl ⟨some ("Z"), [], ⟨0, 0⟩⟩]
     else if s = ("YSRC") then some [.importDecl ⟨some ("Z"), [], ⟨0, 0⟩⟩]
     else if s = ("ZSRC") then some [.otherStmt]
     else none⟩

/-- Source of module E: imports `{f}` from "X" and calls `f()`. -/
def srcE : String := "import { f } from \"X\";f();"

/-- Source of module X: no imports, no top-level calls. -/
def srcX : String := "export const x = 1;"

/-- Concrete environment with entry E importing X, plus an unreadable
location W (its load fails). -/
def envEX : Env :=
  ⟨fun p _ => some p,
   fun l => if l = ("E") then some srcE else if l = ("X") then some srcX else none,
   fun s =>
     if s = srcE then
       some [.importDecl ⟨some ("X"), [⟨.importSpecifier (.identifier "f" ⟨9, 10⟩), ⟨9, 10⟩⟩], ⟨0, 22⟩⟩,
             .exprStmt (.callExpression (.identCallee ⟨"f", ⟨22, 23⟩⟩))]
     else if s = srcX then some [.otherStmt]
     else none⟩

/-- Concrete module used for editing witnesses: six characters, no AST. -/
def mc4 : Module := ⟨"abcdef", []⟩

/-! Auxiliary lemmas. -/

/-- The push loop of `calculateNotUsedImportDeclarations` is a filter of
the import declarations in declaration order. -/
theorem calcNotUsed_eq_filter (m : Module) :
    calculateNotUsedImportDeclarations m =
      (calculateImportDeclarations m).filter (fun d =>
        !((collectedSpecifiers d).any (fun importSpecifier =>
          (calculateUsedSpecifiersInModuleBody m).any (fun usedSpecifier =>
            nodeToPlain m usedSpecifier.span == nodeToPlain m importSpecifier.span)))) := by
  simp only [calculateNotUsedImportDeclarations, calculateImportSpecifiersMap,
    List.filter_map, List.map_map, Function.comp_def, List.map_id']

/-- `keepChars` only depends on the values of the index predicate. -/
theorem keepChars_congr {p q : Nat → Bool} (h : ∀ i, p i = q i) :
    ∀ n l, keepChars p n l = keepChars q n l := by
  intro n l
  induction l generalizing n with
  | nil => rfl
  | cons c cs ih => simp [keepChars, h n, ih]

/-- `keepChars` with an everywhere-true predicate keeps everything. -/
theorem keepChars_all {p : Nat → Bool} (h : ∀ i, p i = true) :
    ∀ n l, keepChars p n l = l := by
  intro n l
  induction l generalizing n with
  | nil => rfl
  | cons c cs ih => simp [keepChars, h n, ih]

/-- The removal reduce keeps the original string intact. -/
theorem removeNodes_original (ns : List NodeSpan) :
    ∀ ms : MagicString, (removeNodes ms ns).original = ms.original := by
  induction ns with
  | nil => intro ms; rfl
  | cons n ns ih =>
    intro ms
    show (removeNodes (ms.remove n.start n.stop) ns).original = ms.original
    rw [ih]
    rfl


/-- The removal reduce records exactly the given spans (in reverse push
order) on top of the pending ones. -/
theorem removeNodes_removed (ns : List NodeSpan) :
    ∀ ms : MagicString, (removeNodes ms ns).removed = ns.reverse ++ ms.removed := by
  induction ns with
  | nil => intro ms; simp [removeNodes]
  | cons n ns ih =>
    intro ms
    show (removeNodes (ms.remove n.start n.stop) ns).removed = (n :: ns).reverse ++ ms.removed
    rw [ih]
    simp [MagicString.remove, List.reverse_cons, List.append_assoc]

/-- Coverage by a span list is invariant under permutation of the list. -/
theorem coveredB_perm {ns₁ ns₂ : List NodeSpan} (h : ns₁.Perm ns₂) (i : Nat) :
    coveredB ns₁ i = coveredB ns₂ i := by
  rcases h1 : coveredB ns₁ i with _ | _
  · rcases h2 : coveredB ns₂ i with _ | _
    · rfl
    · exfalso
      rcases List.any_eq_true.mp h2 with ⟨n, hn, hni⟩
      have : coveredB ns₁ i = true :=
        List.any_eq_true.mpr ⟨n, (h.mem_iff).mpr hn, hni⟩
      simp [this] at h1
  · rcases List.any_eq_true.mp h1 with ⟨n, hn, hni⟩
    exact (List.any_eq_true.mpr ⟨n, (h.mem_iff).mp hn, hni⟩).symm

/-- Coverage by a reversed span list is coverage by the list. -/
theorem coveredB_reverse (ns : List NodeSpan) (i : Nat) :
    coveredB ns.reverse i = coveredB ns i :=
  coveredB_perm (List.reverse_perm ns) i

/-- `getCode` keeps exactly the characters outside the removed spans. -/
theorem getCode_eq_keep (m : Module) (ns : List NodeSpan) :
    getCode m ns = String.mk (keepChars (fun i => !coveredB ns i) 0 m.source.data) := by
  cases ns with
  | nil => rfl
  | cons n ns =>
    show (removeNodes (MagicString.ofString m.source) (n :: ns)).serialize = _
    unfold MagicString.serialize
    rw [removeNodes_original, removeNodes_removed]
    refine congrArg String.mk (keepChars_congr (fun i => ?_) 0 _)
    have h : (n :: ns).reverse ++ (MagicString.ofString m.source).removed = (n :: ns).reverse := by
      simp [MagicString.ofString]
    rw [h, coveredB_reverse]

/-- With no removals the serialized text is the original source. -/
theorem getCode_nil (m : Module) : getCode m [] = m.source := by
  rw [getCode_eq_keep]
  rw [keepChars_all (fun i => by simp [coveredB]) 0 m.source.data]

/-- `keepChars` coincides with filtering the index range and reading the
characters back by index. -/
theorem keepChars_eq_range (p : Nat → Bool) :
    ∀ (l : List Char) (i : Nat),
      keepChars p i l =
        ((List.range l.length).filter (fun j => p (i + j))).filterMap (fun j => l.get? j) := by
  intro l
  induction l with
  | nil => intro i; simp [keepChars]
  | cons c cs ih =>
    intro i
    rw [List.length_cons, List.range_succ_eq_map]
    rw [List.filter_cons]
    have hmap : (List.map Nat.succ (List.range cs.length)).filter (fun j => p (i + j)) =
        List.map Nat.succ ((List.range cs.length).filter (fun j => p (i + 1 + j))) := by
      rw [List.filter_map]
      refine congrArg _ (List.filter_congr (fun x _ => ?_))
      have : i + Nat.succ x = i + 1 + x := by omega
      simp [Function.comp, this]
    have hget : (List.map Nat.succ ((List.range cs.length).filter (fun j => p (i + 1 + j)))).filterMap
        (fun j => (c :: cs).get? j) =
        ((List.range cs.length).filter (fun j => p (i + 1 + j))).filterMap (fun j => cs.get? j) := by
      rw [List.filterMap_map]
      rfl
    cases hp : p i with
    | true =>
      simp only [Nat.add_zero, hp, if_pos]
      rw [hmap]
      rw [List.filterMap_cons]
      simp only [List.get?_cons_zero]
      rw [hget, keepChars, hp, if_pos rfl, ih (i + 1)]
    | false =>
      simp only [Nat.add_zero, hp, if_neg Bool.false_ne_true]
      rw [hmap, hget, keepChars, hp]
      simp [ih (i + 1)]

/-- The characters of the edited text are exactly the source characters at
the indices covered by no removed span, in original order. -/
theorem getCode_data_eq (m : Module) (ns : List NodeSpan) :
    (getCode m ns).data =
      ((List.range m.source.data.length).filter (fun i => !coveredB ns i)).filterMap
        (fun i => m.source.data.get? i) := by
  rw [getCode_eq_keep]
  show keepChars _ 0 m.source.data = _
  rw [keepChars_eq_range]
  refine congrArg _ (List.filter_congr (fun x _ => ?_))
  simp

/-- An identifier-shaped text contains no space character. -/
theorem no_space_of_identifierText {s : String} (h : isIdentifierText s = true) :
    ' ' ∉ s.data := by
  intro hmem
  unfold isIdentifierText at h
  have h2 := ((Bool.and_eq_true _ _).mp h).2
  have h3 := List.all_eq_true.mp h2 _ hmem
  exact absurd h3 (by decide)

/-- A specifier collected by `calculateImportSpecifiersMap` is in particular
a named (`ImportSpecifier`-typed) specifier. -/
theorem collected_mem_named {d : ImportDeclaration} {s : Specifier}
    (h : s ∈ collectedSpecifiers d) : s ∈ namedSpecifiers d := by
  rcases List.mem_filter.mp h with ⟨h1, h2⟩
  refine List.mem_filter.mpr ⟨h1, ?_⟩
  rcases hk : s.kind with imp | _ | _
  · simp [hk]
  · rw [hk] at h2
    exact absurd h2 (by simp)
  · rw [hk] at h2
    exact absurd h2 (by simp)

/-- The declaration node of the side-effect-only import of `m9`. -/
def m9decl : ImportDeclaration := ⟨some ("m"), [], ⟨0, 11⟩⟩

/-- The declaration node of the aliased import of `m10`. -/
def m10decl : ImportDeclaration :=
  ⟨some ("m"), [⟨.importSpecifier (.identifier "a" ⟨9, 10⟩), ⟨9, 15⟩⟩], ⟨0, 27⟩⟩

/-! Claim theorems. -/

/-- C4: the edited-source computation `getCode` applies removal spans as
offsets into the original source independently of application order (the
output is invariant under permutation of the removal list); with zero
removals the output is byte-for-byte the input; and the output consists of
exactly the original characters at indices outside every removed span, in
original relative order. -/
theorem getCode_offset_stable (m : Module) (ns₁ ns₂ : List NodeSpan)
    (h : ns₁.Perm ns₂) :
    getCode m ns₁ = getCode m ns₂ ∧
    getCode m [] = m.source ∧
    (getCode m ns₁).data =
      ((List.range m.source.data.length).filter (fun i => !coveredB ns₁ i)).filterMap
        (fun i => m.source.data.get? i) := by
  refine ⟨?_, getCode_nil m, getCode_data_eq m ns₁⟩
  rw [getCode_eq_keep, getCode_eq_keep]
  exact congrArg String.mk
    (keepChars_congr (fun i => by rw [coveredB_perm h]) 0 m.source.data)

/-- Witness for C4 at a concrete module and a concrete pair of removal
lists given in opposite orders. -/
theorem getCode_offset_stable_witness :
    ([(⟨0, 2⟩ : NodeSpan), ⟨4, 5⟩].Perm [⟨4, 5⟩, ⟨0, 2⟩]) ∧
    getCode mc4 [⟨0, 2⟩, ⟨4, 5⟩] = getCode mc4 [⟨4, 5⟩, ⟨0, 2⟩] :=
  ⟨by decide, (getCode_offset_stable mc4 [⟨0, 2⟩, ⟨4, 5⟩] [⟨4, 5⟩, ⟨0, 2⟩] (by decide)).1⟩

/-- C8: `calculateNotUsedImportDeclarations` is idempotent and leaves the
module unchanged, `getCode` is side-effect-free on the stored module (the
method mutates only its local `MagicString`), and `Graph.removeUnusedImports`
leaves the built graph state unchanged across repeated runs. -/
theorem shake_pure_idempotent (m : Module) (ns : List NodeSpan) (st : GraphState) :
    (calculateNotUsedImportDeclarationsS m).2 = m ∧
    (calculateNotUsedImportDeclarationsS ((calculateNotUsedImportDeclarationsS m).2)).1 =
      (calculateNotUsedImportDeclarationsS m).1 ∧
    (calculateNotUsedImportDeclarationsS m).1 = calculateNotUsedImportDeclarations m ∧
    (getCodeS m ns).2 = m ∧
    (getCodeS ((getCodeS m ns).2) ns).1 = (getCodeS m ns).1 ∧
    (getCodeS m ns).1 = getCode m ns ∧
    (removeUnusedImportsS st).2 = st ∧
    (removeUnusedImportsS ((removeUnusedImportsS st).2)).1 = (removeUnusedImportsS st).1 :=
  ⟨rfl, rfl, rfl, rfl, rfl, rfl, rfl, rfl⟩

/-- C9: an import declaration whose collected named-specifier list is empty
(side-effect-only, default-only, or namespace-only import) is always
classified unused, every index of its span is covered by the removed spans,
and the generated output consists of exactly the source characters at
uncovered indices — so the whole span is absent from the output. -/
theorem import_without_named_specifiers_removed (m : Module) (d : ImportDeclaration)
    (h1 : d ∈ calculateImportDeclarations m)
    (h2 : collectedSpecifiers d = []) :
    d ∈ calculateNotUsedImportDeclarations m ∧
    (∀ i, d.span.start ≤ i → i < d.span.stop →
      coveredB ((calculateNotUsedImportDeclarations m).map (fun dd => dd.span)) i = true) ∧
    (getCode m ((calculateNotUsedImportDeclarations m).map (fun dd => dd.span))).data =
      ((List.range m.source.data.length).filter
        (fun i => !coveredB ((calculateNotUsedImportDeclarations m).map (fun dd => dd.span)) i)).filterMap
        (fun i => m.source.data.get? i) := by
  have hmem : d ∈ calculateNotUsedImportDeclarations m := by
    rw [calcNotUsed_eq_filter]
    refine List.mem_filter.mpr ⟨h1, ?_⟩
    rw [h2]
    rfl
  refine ⟨hmem, ?_, getCode_data_eq m _⟩
  intro i hle hlt
  refine List.any_eq_true.mpr ⟨d.span, List.mem_map.mpr ⟨d, hmem, rfl⟩, ?_⟩
  simp [hle, hlt]

/-- Witness for C9 at the concrete side-effect-only import module `m9`,
checking classification and coverage of index 5 of the declaration span. -/
theorem import_without_named_specifiers_removed_witness :
    (m9decl ∈ calculateImportDeclarations m9 ∧ collectedSpecifiers m9decl = []) ∧
    m9decl ∈ calculateNotUsedImportDeclarations m9 ∧
    coveredB ((calculateNotUsedImportDeclarations m9).map (fun dd => dd.span)) 5 = true :=
  ⟨⟨by decide, by decide⟩,
   (import_without_named_specifiers_removed m9 m9decl (by decide) (by decide)).1,
   (import_without_named_specifiers_removed m9 m9decl (by decide) (by decide)).2.1 5
     (by decide) (by decide)⟩

/-- C10: usage matching slices the whole named-specifier node span, so when
every collected specifier's text contains a space (as "a as b" of an
aliased one does) while every top-level callee is identifier-shaped text,
the declaration is classified unused — even when the alias or the imported
name is called at top level. -/
theorem aliased_import_always_unused (m : Module) (d : ImportDeclaration)
    (h1 : d ∈ calculateImportDeclarations m)
    (h2 : (collectedSpecifiers d).all
      (fun s => decide (' ' ∈ (nodeToPlain m s.span).data)) = true)
    (h3 : (calculateUsedSpecifiersInModuleBody m).all
      (fun u => isIdentifierText (nodeToPlain m u.span)) = true) :
    d ∈ calculateNotUsedImportDeclarations m := by
  rw [calcNotUsed_eq_filter]
  refine List.mem_filter.mpr ⟨h1, ?_⟩
  rw [Bool.not_eq_true']
  rw [List.any_eq_false]
  intro s hs
  rw [Bool.not_eq_true]
  rw [List.any_eq_false]
  intro u hu
  rw [Bool.not_eq_true]
  rw [beq_eq_false_iff_ne]
  intro hequ
  have hsp : ' ' ∈ (nodeToPlain m s.span).data :=
    of_decide_eq_true (List.all_eq_true.mp h2 s hs)
  have hid : isIdentifierText (nodeToPlain m u.span) = true :=
    List.all_eq_true.mp h3 u hu
  rw [hequ] at hid
  exact no_space_of_identifierText hid hsp

/-- C1: a declaration is classified unused iff no named specifier's exact
source text matches any top-level call-callee identifier's exact source
text, and `calculateNotUsedImportDeclarations` returns exactly those
declarations in original declaration order — under the parser guarantees
that every callee's source text is identifier-shaped and that every named
specifier the code does not collect (string-named imports) has a source
text that is not identifier-shaped. -/
theorem unused_iff_no_specifier_text_match (m : Module)
    (hu : (calculateUsedSpecifiersInModuleBody m).all
      (fun u => isIdentifierText (nodeToPlain m u.span)) = true)
    (hs : (calculateImportDeclarations m).all (fun d =>
      (namedSpecifiers d).all (fun s =>
        decide (s ∈ collectedSpecifiers d) ||
          !isIdentifierText (nodeToPlain m s.span))) = true) :
    calculateNotUsedImportDeclarations m =
      (calculateImportDeclarations m).filter
        (fun d => specUnusedImportDeclaration m d) := by
  rw [calcNotUsed_eq_filter]
  refine List.filter_congr (fun d hd => ?_)
  unfold specUnusedImportDeclaration
  refine congrArg (fun b => !b) ?_
  rw [Bool.eq_iff_iff, List.any_eq_true, List.any_eq_true]
  constructor
  · rintro ⟨s, hsmem, hPs⟩
    exact ⟨s, collected_mem_named hsmem, hPs⟩
  · rintro ⟨s, hsmem, hPs⟩
    by_cases hc : s ∈ collectedSpecifiers d
    · exact ⟨s, hc, hPs⟩
    · exfalso
      have hsd := List.all_eq_true.mp (List.all_eq_true.mp hs d hd) s hsmem
      rw [decide_eq_false hc, Bool.false_or, Bool.not_eq_true'] at hsd
      rcases List.any_eq_true.mp hPs with ⟨u, humem, hequ⟩
      have hequ' : nodeToPlain m u.span = nodeToPlain m s.span := by
        simpa using hequ
      have hidu := List.all_eq_true.mp hu u humem
      rw [hequ'] at hidu
      rw [hidu] at hsd
      cases hsd

/-- Witness for C1 at the scenario module `mEx` (imports `{a}`, `{b}`, `{c}`
from "A", "B", "C"; body calls `a()` and `b()`). -/
theorem unused_iff_no_specifier_text_match_witness :
    ((calculateUsedSpecifiersInModuleBody mEx).all
      (fun u => isIdentifierText (nodeToPlain mEx u.span)) = true ∧
     (calculateImportDeclarations mEx).all (fun d =>
      (namedSpecifiers d).all (fun s =>
        decide (s ∈ collectedSpecifiers d) ||
          !isIdentifierText (nodeToPlain mEx s.span))) = true) ∧
    calculateNotUsedImportDeclarations mEx =
      (calculateImportDeclarations mEx).filter
        (fun d => specUnusedImportDeclaration mEx d) :=
  ⟨⟨by decide, by decide⟩,
   unused_iff_no_specifier_text_match mEx (by decide) (by decide)⟩

/-- Witness for C10 at the concrete aliased-import module `m10`, whose body
calls both `a()` and `b()`. -/
theorem aliased_import_always_unused_witness :
    (m10decl ∈ calculateImportDeclarations m10 ∧
     (collectedSpecifiers m10decl).all
       (fun s => decide (' ' ∈ (nodeToPlain m10 s.span).data)) = true ∧
     (calculateUsedSpecifiersInModuleBody m10).all
       (fun u => isIdentifierText (nodeToPlain m10 u.span)) = true) ∧
    m10decl ∈ calculateNotUsedImportDeclarations m10 :=
  ⟨⟨by decide, by decide, by decide⟩,
   aliased_import_always_unused m10 m10decl (by decide) (by decide) (by decide)⟩

/-- Helper for C3: on the two-module cycle every worklist whose pending
paths all lie on the cycle exhausts any amount of fuel. -/
theorem cycleLoop_none : ∀ (fuel : Nat) (wl : List (String × Loc)) (st : GraphState),
    wl ≠ [] → (∀ p ∈ wl, p.1 = "A" ∨ p.1 = "B") →
    buildLoop envCycle fuel wl st = none := by
  intro fuel
  induction fuel with
  | zero =>
    intro wl st hne _
    cases wl with
    | nil => exact absurd rfl hne
    | cons x xs => rfl
  | succ fuel ih =>
    intro wl st hne hab
    cases wl with
    | nil => exact absurd rfl hne
    | cons x xs =>
      rcases x with ⟨path, parent⟩
      rcases hab (path, parent) (List.mem_cons_self _ _) with h | h
      · subst h
        have hstep : buildLoop envCycle (fuel + 1) (("A", parent) :: xs) st =
            buildLoop envCycle fuel (("B", ("A" : Loc)) :: xs)
              ⟨mapSet st.modules ⟨st.nextId, "A", ⟨"ASRC", [.importDecl ⟨some ("B"), [], ⟨0, 0⟩⟩]⟩⟩,
               st.nextId + 1⟩ := rfl
        rw [hstep]
        refine ih _ _ (by simp) ?_
        intro p hp
        rcases List.mem_cons.mp hp with h | h
        · right
          rw [h]
        · exact hab p (List.mem_cons_of_mem _ h)
      · subst h
        have hstep : buildLoop envCycle (fuel + 1) (("B", parent) :: xs) st =
            buildLoop envCycle fuel (("A", ("B" : Loc)) :: xs)
              ⟨mapSet st.modules ⟨st.nextId, "B", ⟨"BSRC", [.importDecl ⟨some ("A"), [], ⟨0, 0⟩⟩]⟩⟩,
               st.nextId + 1⟩ := rfl
        rw [hstep]
        refine ih _ _ (by simp) ?_
        intro p hp
        rcases List.mem_cons.mp hp with h | h
        · left
          rw [h]
        · exact hab p (List.mem_cons_of_mem _ h)

/-- C3: on the cyclic graph (A imports B, B imports A) `Graph.build` never
finishes: for every amount of fuel the recursion is still pending, i.e. the
code recurses without bound instead of failing with a CycleError (the code
has no in-progress set and no cycle error at all). -/
theorem cyclic_graph_build_never_terminates :
    ∀ fuel, build envCycle fuel ("A") ("root") = none := by
  intro fuel
  refine cycleLoop_none fuel [("A", "root")] ⟨[], 0⟩ (by simp) ?_
  intro p hp
  rcases List.mem_cons.mp hp with h | h
  · left
    rw [h]
  · simp at h

/-- C2: evaluating the build on the diamond dependency (E imports X and Y;
X and Y import Z).  Because `Graph.modules` is a `Map` keyed by `URL`
objects — compared by identity, and freshly allocated per module — Z is
registered twice: the final module mapping is not keyed by the canonical
string form and a reachable module can appear more than once. -/
theorem graph_diamond_registers_duplicate :
    (stateOf (build envDiamond 10 ("E") ("root"))).modules.map (fun mv => mv.href) =
      ["E", "X", "Z", "Y", "Z"] ∧
    ((stateOf (build envDiamond 10 ("E") ("root"))).modules.map (fun mv => mv.href)).count ("Z") = 2 := by
  constructor
  · decide
  · decide

/-- C5: evaluating `Chunk.generate` on a built two-module chunk (entry E
together with X): the reachable set is {E, X}, the per-module edited texts are
both computed, yet `generate` returns only the first module's text, which
does not contain module X's edited code — the chunk artifact misses
reachable modules (the code's own TODO says it should concatenate all). -/
theorem chunk_generate_drops_sibling_modules :
    (stateOf (build envEX 10 ("E") ("root"))).modules.map (fun mv => mv.href) = ["E", "X"] ∧
    (removeUnusedImports (stateOf (build envEX 10 ("E") ("root")))).map (fun p => p.2) =
      [srcE, srcX] ∧
    chunkGenerate (stateOf (build envEX 10 ("E") ("root"))) = some srcE ∧
    ¬ (srcX.data <:+: srcE.data) := by
  refine ⟨by decide, by decide, by decide, by decide⟩

/-- Helper: scheduling never invents an error on an empty rejection list. -/
theorem scheduledFirst_nil (sched : List Nat) : scheduledFirst sched [] = none := by
  induction sched with
  | nil => rfl
  | cons n rest ih => simpa [scheduledFirst] using ih

/-- Helper: some rejection is always surfaced when the rejection list is
non-empty, whatever the schedule. -/
theorem scheduledFirst_isSome (sched : List Nat) (errs : List (Nat × Err))
    (h : errs ≠ []) : (scheduledFirst sched errs).isSome = true := by
  induction sched with
  | nil =>
    cases errs with
    | nil => exact absurd rfl h
    | cons e es => rfl
  | cons n rest ih =>
    cases hf : errs.find? (fun p => p.1 == n) with
    | some p => simp [scheduledFirst, hf]
    | none =>
      simp only [scheduledFirst, hf]
      exact ih

/-- C6 (amended): a failure building any one chunk makes the whole
orchestration reject under every schedule — `treeShaker` awaits all chunk
builds with `Promise.all`, so sibling chunks' generation is never exposed. -/
theorem chunk_failure_rejects_whole_orchestration (env : Env) (fuel : Nat)
    (decl : List (String × String)) (parent : Loc) (sched : List Nat)
    (h : decl.any (fun p => isErrorResult (build env fuel p.2 parent)) = true) :
    isErrorResult (treeShakerBuild env fuel decl parent sched) = true := by
  rcases List.any_eq_true.mp h with ⟨p, hp, hperr⟩
  have hb : ∃ e, build env fuel p.2 parent = some (.error e) := by
    cases hbe : build env fuel p.2 parent with
    | none =>
      rw [hbe] at hperr
      exact absurd hperr (by simp [isErrorResult])
    | some r =>
      cases r with
      | error e => exact ⟨e, rfl⟩
      | ok st =>
        rw [hbe] at hperr
        exact absurd hperr (by simp [isErrorResult])
  rcases hb with ⟨e, hbe⟩
  simp only [treeShakerBuild]
  have hne : (decl.map (fun p => build env fuel p.2 parent)).enum.filterMap
      (fun q => match q.2 with
        | some (.error e) => some (q.1, e)
        | _ => none) ≠ [] := by
    intro hnil
    have hmem : build env fuel p.2 parent ∈ decl.map (fun p => build env fuel p.2 parent) :=
      List.mem_map_of_mem _ hp
    rcases List.get_of_mem hmem with ⟨n, hn⟩
    have henum : (n.1, build env fuel p.2 parent) ∈
        (decl.map (fun p => build env fuel p.2 parent)).enum := by
      rw [List.mem_enum_iff_getElem?]
      have hlt := n.2
      rw [List.getElem?_eq_getElem hlt]
      rw [← hn]
      rw [List.get_eq_getElem]
    have := (List.filterMap_eq_nil_iff.mp hnil) _ henum
    rw [hbe] at this
    simp at this
  rcases Option.isSome_iff_exists.mp (scheduledFirst_isSome sched _ hne) with ⟨e2, he2⟩
  rw [he2]
  rfl


/-- Witness for the amended C6 at a concrete two-chunk declaration whose
second chunk (entry W) fails to load. -/
theorem chunk_failure_rejects_whole_orchestration_witness :
    ([("g", "E"), ("b", "W")].any
      (fun p => isErrorResult (build envEX 10 p.2 ("root"))) = true) ∧
    isErrorResult (treeShakerBuild envEX 10 [("g", "E"), ("b", "W")] ("root") []) = true :=
  ⟨by decide,
   chunk_failure_rejects_whole_orchestration envEX 10 [("g", "E"), ("b", "W")] ("root") []
     (by decide)⟩

/-- Counterexample to C6 as stated: the sibling chunk rooted at E builds
fine and would generate `srcE`, yet with the failing chunk W declared next
to it the whole `treeShaker` call rejects with the load error, so the
sibling's produced text is never yielded. -/
theorem sibling_chunk_output_withheld_on_failure :
    isOkSome (build envEX 10 ("E") ("root")) = true ∧
    chunkGenerate (stateOf (build envEX 10 ("E") ("root"))) = some srcE ∧
    treeShakerBuild envEX 10 [("g", "E"), ("b", "W")] ("root") [] =
      some (.error .loadError) := by
  refine ⟨by decide, by decide, ?_⟩
  rfl

/-- C7: whatever the settlement schedule of the concurrently awaited chunk
builds, when every chunk build succeeds `treeShaker` holds the built graphs
in input-mapping declaration order, and the handle's `generate()` maps them
to the per-chunk produced texts in that same order. -/
theorem generate_returns_in_declaration_order (env : Env) (fuel : Nat)
    (decl : List (String × String)) (parent : Loc) (sched : List Nat)
    (h : decl.all (fun p => isOkSome (build env fuel p.2 parent)) = true) :
    treeShakerBuild env fuel decl parent sched =
      some (.ok (decl.map (fun p => stateOf (build env fuel p.2 parent)))) ∧
    treeShakerGenerate (decl.map (fun p => stateOf (build env fuel p.2 parent))) =
      decl.map (fun p => chunkGenerate (stateOf (build env fuel p.2 parent))) := by
  constructor
  · simp only [treeShakerBuild]
    have herrs : (decl.map (fun p => build env fuel p.2 parent)).enum.filterMap
        (fun q => match q.2 with
          | some (.error e) => some (q.1, e)
          | _ => none) = [] := by
      rw [List.filterMap_eq_nil_iff]
      intro q hq
      have hq2 : q.2 ∈ decl.map (fun p => build env fuel p.2 parent) := by
        have hsnd := List.enum_map_snd (decl.map (fun p => build env fuel p.2 parent))
        rw [← hsnd]
        exact List.mem_map_of_mem _ hq
      rcases List.mem_map.mp hq2 with ⟨p, hp, hpe⟩
      have hok := List.all_eq_true.mp h p hp
      cases hbe : build env fuel p.2 parent with
      | none =>
        rw [hbe] at hok
        exact absurd hok (by simp [isOkSome])
      | some r =>
        cases r with
        | error e =>
          rw [hbe] at hok
          exact absurd hok (by simp [isOkSome])
        | ok st =>
          rw [hbe] at hpe
          rw [← hpe]
    rw [herrs, scheduledFirst_nil]
    have hnone : (decl.map (fun p => build env fuel p.2 parent)).any
        (fun b => b.isNone) = false := by
      rw [List.any_eq_false]
      intro b hb
      rcases List.mem_map.mp hb with ⟨p, hp, hpe⟩
      have hok := List.all_eq_true.mp h p hp
      cases hbe : build env fuel p.2 parent with
      | none =>
        rw [hbe] at hok
        exact absurd hok (by simp [isOkSome])
      | some r =>
        rw [hbe] at hpe
        rw [← hpe]
        simp
    rw [hnone]
    simp [List.map_map, Function.comp_def]
  · simp [treeShakerGenerate, List.map_map, Function.comp_def]

/-- Witness for C7 at two succeeding chunks and a schedule listing the
second chunk first. -/
theorem generate_returns_in_declaration_order_witness :
    ([("one", "E"), ("two", "X")].all
      (fun p => isOkSome (build envEX 10 p.2 ("root"))) = true) ∧
    treeShakerBuild envEX 10 [("one", "E"), ("two", "X")] ("root") [1, 0] =
      some (.ok ([("one", "E"), ("two", "X")].map
        (fun p => stateOf (build envEX 10 p.2 ("root"))))) :=
  ⟨by decide,
   (generate_returns_in_declaration_order envEX 10 [("one", "E"), ("two", "X")] ("root")
     [1, 0] (by decide)).1⟩

end TreeShaker
